import Mathlib

/-
Verification of the PPU module (src/src/gpu.rs) of the rustboy repository.

The definitions below are a shallow embedding of gpu.rs:
  * machine bytes and words are modelled as `Nat` (with explicit `% 256`
    and similar where the source relies on wrapping);
  * the RGBA frame buffer (`image_data`) and VRAM are modelled as functions
    `Nat → Nat` (byte at offset), updated pointwise;
  * the OAM sprite table is a `List Nat` so that the `chunks(4)` iteration
    of `render_sprites` can be modelled exactly;
  * Rust indexing that can abort on an out-of-bounds access is modelled with
    `Option` (`none` = the program aborts);
  * each definition carries a comment pointing at the lines of gpu.rs
    it embeds.
-/

/-- gpu.rs line 12: `const VRAM_SIZE: usize = 0x2000`. -/
def VRAM_SIZE : Nat := 0x2000

/-- gpu.rs line 13: `pub const OAM_SIZE: usize = 0x9F` (with the comment
"0xfe00 - 0xfe9f is OAM").  Note this is 159, not 160. -/
def OAM_SIZE : Nat := 0x9F

/-- gpu.rs line 14: `const OAM_ENTRY_SIZE: usize = 4`. -/
def OAM_ENTRY_SIZE : Nat := 4

/-- gpu.rs line 15: `const OBJ_COUNT: usize = 40` (sprite count). -/
def OBJ_COUNT : Nat := 40

/-- gpu.rs line 16: `const NUM_TILES: usize = 192`. -/
def NUM_TILES : Nat := 192

/-- gpu.rs line 18: `pub const HEIGHT: usize = 144`. -/
def HEIGHT : Nat := 144

/-- gpu.rs line 19: `pub const WIDTH: usize = 160`. -/
def WIDTH : Nat := 160

/-- gpu.rs line 22: `pub type Color = [u8; 4]`, a 4-entry RGBA byte list. -/
abbrev Color := List Nat

/-- gpu.rs line 23: `pub type Palette = [Color; 4]`. -/
abbrev Palette := List Color

/-- gpu.rs lines 58-64: the PPU mode state machine states. -/
inductive Mode where
  | HBlank
  | VBlank
  | RdOam
  | RdVram
deriving DecidableEq

/-- gpu.rs lines 60-63: the numeric encoding of `Mode` (`as u8`). -/
def Mode.toNat : Mode → Nat
  | Mode.HBlank => 0
  | Mode.VBlank => 1
  | Mode.RdOam => 2
  | Mode.RdVram => 3

/-- gpu.rs lines 25-29: the compiled palettes (BG, OBP0, OBP1). -/
structure Palettes where
  bg : Palette
  obp0 : Palette
  obp1 : Palette

/-- gpu.rs lines 52-56: the decoded tile cache.  `data` models
`[[[u8; 8]; 8]; NUM_TILES]` as `tile → row → column → color index`;
`to_update` models the per-tile dirty flags. -/
structure Tiles where
  data : Nat → Nat → Nat → Nat
  need_update : Bool
  to_update : Nat → Bool

/-- gpu.rs lines 66-147: the `Gpu` state.  The GUI-only fields (`c`, `d`,
`img`) are omitted; everything the register file, the state machine and the
renderers touch is present, with the source field names. -/
structure Gpu where
  oam : List Nat
  image_data : Nat → Nat
  is_cgb : Bool
  is_sgb : Bool
  mode : Mode
  clock : Nat
  vrambank : Nat → Nat
  vrambank_sel : Nat
  lcdon : Bool
  winmap : Bool
  winon : Bool
  tiledata : Bool
  bgmap : Bool
  objsize : Bool
  objon : Bool
  bgon : Bool
  lycly : Bool
  mode2int : Bool
  mode1int : Bool
  mode0int : Bool
  scy : Nat
  scx : Nat
  ly : Nat
  lyc : Nat
  bgp : Nat
  obp0 : Nat
  obp1 : Nat
  wy : Nat
  wx : Nat
  pal : Palettes
  tiles : Tiles

/-- gpu.rs lines 37-42: `PALETTE_GREEN`. -/
def PALETTE_GREEN : Palette :=
  [[225, 247, 207, 255], [136, 193, 107, 255], [49, 106, 74, 255], [7, 24, 31, 255]]

/-- gpu.rs line 50: `const PALETTE: &Palette = &PALETTE_GREEN`. -/
def PALETTE : Palette := PALETTE_GREEN

/-- gpu.rs lines 730-737: `update_pal` recompiles one palette from the packed
register byte; slot `i` is `PALETTE[(val >> 2*i) & 0x3]`. -/
def update_pal (val : Nat) : Palette :=
  [PALETTE.getD ((val >>> 0) &&& 0x3) [],
   PALETTE.getD ((val >>> 2) &&& 0x3) [],
   PALETTE.getD ((val >>> 4) &&& 0x3) [],
   PALETTE.getD ((val >>> 6) &&& 0x3) []]

/-- Rust `bool as u8`. -/
def b2n (b : Bool) : Nat := if b then 1 else 0

/-- gpu.rs lines 281-318: the register read `rb`.  The 0x41 branch embeds the
source expression verbatim, including the comparison
`self.lycly as u8 == self.ly` on line 300. -/
def rb (g : Gpu) (addr : Nat) : Nat :=
  match addr &&& 0xff with
  | 0x40 =>
      (b2n g.lcdon <<< 7) ||| (b2n g.winmap <<< 6) ||| (b2n g.winon <<< 5) |||
      (b2n g.tiledata <<< 4) ||| (b2n g.bgmap <<< 3) ||| (b2n g.objsize <<< 2) |||
      (b2n g.objon <<< 1) ||| (b2n g.bgon <<< 0)
  | 0x41 =>
      (b2n g.lycly <<< 6) ||| (b2n g.mode2int <<< 5) ||| (b2n g.mode1int <<< 4) |||
      (b2n g.mode0int <<< 3) |||
      ((if b2n g.lycly = g.ly then 1 else 0) <<< 2) |||
      (g.mode.toNat <<< 0)
  | 0x42 => g.scy
  | 0x43 => g.scx
  | 0x44 => g.ly
  | 0x45 => g.lyc
  | 0x47 => g.bgp
  | 0x48 => g.obp0
  | 0x49 => g.obp1
  | 0x4a => g.wy
  | 0x4b => g.wx
  | 0x4f => g.vrambank_sel
  | _ => 0xff

/-- gpu.rs lines 320-361: the register write `wb`. -/
def wb (g : Gpu) (addr val : Nat) : Gpu :=
  match addr &&& 0xff with
  | 0x40 =>
      let before := g.lcdon
      let g2 := { g with
        lcdon := ((val >>> 7) &&& 1) != 0,
        winmap := ((val >>> 6) &&& 1) != 0,
        winon := ((val >>> 5) &&& 1) != 0,
        tiledata := ((val >>> 4) &&& 1) != 0,
        bgmap := ((val >>> 3) &&& 1) != 0,
        objsize := ((val >>> 2) &&& 1) != 0,
        objon := ((val >>> 1) &&& 1) != 0,
        bgon := ((val >>> 0) &&& 1) != 0 }
      if !before && g2.lcdon then { g2 with clock := 4, ly := 0 } else g2
  | 0x41 =>
      { g with
        lycly := ((val >>> 6) &&& 1) != 0,
        mode2int := ((val >>> 5) &&& 1) != 0,
        mode1int := ((val >>> 4) &&& 1) != 0,
        mode0int := ((val >>> 3) &&& 1) != 0 }
  | 0x42 => { g with scy := val }
  | 0x43 => { g with scx := val }
  | 0x45 => { g with lyc := val }
  | 0x47 => { g with bgp := val, pal := { g.pal with bg := update_pal val } }
  | 0x48 => { g with obp0 := val, pal := { g.pal with obp0 := update_pal val } }
  | 0x49 => { g with obp1 := val, pal := { g.pal with obp1 := update_pal val } }
  | 0x4a => { g with wy := val }
  | 0x4b => { g with wx := val }
  | 0x4f => if g.is_cgb then { g with vrambank_sel := val &&& 1 } else g
  | _ => g

/-- gpu.rs lines 466-471: one iteration sequence of the row-decode loop.
The loop runs `k` from 7 down to 0, writing `((msb & 1) << 1) | (lsb & 1)`
at position `k` and then shifting both bytes right; so the recursion places
the current low bits at the END of the list (the rightmost pixel). -/
def decodeRowGo (lsb msb : Nat) : Nat → List Nat
  | 0 => []
  | n + 1 =>
      decodeRowGo (lsb >>> 1) (msb >>> 1) n ++ [((msb &&& 1) <<< 1) ||| (lsb &&& 1)]

/-- gpu.rs lines 452-471: decoding one 2-byte tile row into 8 color indices,
left to right. -/
def decodeRow (lsb msb : Nat) : List Nat := decodeRowGo lsb msb 8

/-- gpu.rs lines 433-476: `update_tileset` recomputes every dirty tile from
VRAM and clears its dirty flag.  The imperative per-tile loop writes disjoint
slots, so it is expressed as a pointwise functional update.  The source
`i % NUM_TILES` is kept even though `i < NUM_TILES` on every iteration.
(The `i >= NUM_TILES` arm of the source is an explicit abort for the second,
unimplemented VRAM bank and is unreachable because the loop runs over
exactly NUM_TILES dirty flags.) -/
def update_tileset (g : Gpu) : Gpu :=
  { g with tiles := {
      data := fun i j k =>
        if i < NUM_TILES ∧ g.tiles.to_update i = true then
          (decodeRow (g.vrambank ((i % NUM_TILES) * 16 + j * 2))
                     (g.vrambank ((i % NUM_TILES) * 16 + j * 2 + 1))).getD k 0
        else g.tiles.data i j k,
      need_update := g.tiles.need_update,
      to_update := fun i => if i < NUM_TILES then false else g.tiles.to_update i } }

/-- gpu.rs lines 478-485: `bgbase`, the BG tile-map base offset in VRAM. -/
def bgbase (g : Gpu) : Nat := if g.bgmap then 0x1c00 else 0x1800

/-- Pointwise update of a byte-addressed buffer, modelling one Rust array
store `buf[k] = v`. -/
def fupd (f : Nat → Nat) (k v : Nat) : Nat → Nat :=
  fun n => if n = k then v else f n

/-- gpu.rs lines 720-726: `set_pixel_index` writes one RGBA pixel.  Note the
alpha byte (offset `first_byte + 3`) is written with `pal[colori][0]` — the
red component — exactly as in the source. -/
def set_pixel_index (image : Nat → Nat) (first_byte colori : Nat) (pal : Palette) :
    Nat → Nat :=
  let c := pal.getD colori []
  fupd (fupd (fupd (fupd image first_byte (c.getD 0 0))
    (first_byte + 1) (c.getD 1 0))
    (first_byte + 2) (c.getD 2 0))
    (first_byte + 3) (c.getD 0 0)

/-- gpu.rs lines 508-516: `add_tilei`.  With `tiledata` set the index is an
unsigned offset; with it clear the byte is reinterpreted as an `i8` and added
to the base (the result is cast back to `usize`; for the base 256 used by the
background path it is never negative, so `Int.toNat` is exact). -/
def add_tilei (g : Gpu) (base : Nat) (tilei : Nat) : Nat :=
  if g.tiledata then base + tilei
  else ((base : Int) + (if tilei < 128 then (tilei : Int) else (tilei : Int) - 256)).toNat

/-- gpu.rs lines 567-578: the inner `while x < 8 && i < WIDTH` pixel loop of
`render_background`.  `row` is the decoded tile row, `x` the column inside
the tile, `i` the output pixel, `coff` the frame-buffer byte offset.  The
loop body runs at most 8 times (x strictly increases), so a fuel of 8 gives
the exact loop semantics.  Returns (image, scanline, x, i, coff). -/
def bgInner (row : Nat → Nat) (hflip bgpri : Bool) (bgp : Palette) :
    Nat → (Nat → Nat) → List Nat → Nat → Nat → Nat →
    ((Nat → Nat) × List Nat × Nat × Nat × Nat)
  | 0, image, scanline, x, i, coff => (image, scanline, x, i, coff)
  | fuel + 1, image, scanline, x, i, coff =>
      if x < 8 ∧ i < WIDTH then
        let colori := row (if hflip then 7 - x else x)
        let scanline2 := scanline.set i (if bgpri then 4 else colori)
        let image2 := set_pixel_index image coff colori bgp
        bgInner row hflip bgpri bgp fuel image2 scanline2 (x + 1) (i + 1) (coff + 4)
      else (image, scanline, x, i, coff)

/-- gpu.rs lines 547-583: the outer `loop` of `render_background`.  Each
iteration fetches the tile-index byte from the map and resolves it with
`tilei % 192` (line 554; the `add_tilei` call is commented out in the
source), then paints up to 8 pixels.  `i` strictly increases every
iteration, so fuel 200 > WIDTH gives the exact loop semantics. -/
def bgOuter (g : Gpu) (mapbase y : Nat) :
    Nat → (Nat → Nat) → List Nat → Nat → Nat → Nat → ((Nat → Nat) × List Nat)
  | 0, image, scanline, _, _, _ => (image, scanline)
  | fuel + 1, image, scanline, x, i, coff =>
      let mapoff := ((i + g.scx) % 256) >>> 3
      let tilei := g.vrambank (mapbase + mapoff)
      let tilebase := tilei % 192
      let row := g.tiles.data tilebase y
      let bgpri := false
      let hflip := false
      let bgp := g.pal.bg
      match bgInner row hflip bgpri bgp 8 image scanline x i coff with
      | (image2, scanline2, _, i2, coff2) =>
        if WIDTH ≤ i2 then (image2, scanline2)
        else bgOuter g mapbase y fuel image2 scanline2 0 i2 coff2

/-- gpu.rs lines 518-587: `render_background`.  Returns the updated frame
buffer and the per-line scanline (priority) buffer.  The dead local
`tilebase` of line 541 is kept as in the source; the loop never reads it
because line 554 recomputes the tile index as `tilei % 192`. -/
def render_background (g : Gpu) (scanline : List Nat) : (Nat → Nat) × List Nat :=
  let mapbase0 := bgbase g
  let line := g.ly + g.scy
  let mapbase := mapbase0 + (((line % 256) >>> 3) <<< 5)
  let y := ((g.ly + g.scy) % 256) % 8
  let x := g.scx % 8
  let coff := g.ly * WIDTH * 4
  let tilebase0 := if !g.tiledata then 256 else 0
  let _ := tilebase0
  bgOuter g mapbase y 200 g.image_data scanline x 0 coff

/-- gpu.rs lines 646-674: the `for x in 0..8` column loop of one sprite.
`coff` advances by 4 at the top of every iteration, continues included.  The
frame-buffer write at line 673 uses the `palette` chosen on line 672
(`obp0` when flags bit 4 is SET, `obp1` otherwise) — not the `pal` chosen
on line 635.  The dead `color` binding of line 670 is kept.  The loop body
runs exactly 8 times, so fuel 8 gives the exact loop semantics. -/
def spriteXLoop (g : Gpu) (scanline : List Nat) (row : Nat → Nat) (flags : Nat)
    (pal : Palette) (xoff : Int) : Nat → Int → Int → (Nat → Nat) → (Nat → Nat)
  | 0, _, _, image => image
  | fuel + 1, x, coff, image =>
      let coff2 := coff + 4
      if xoff + x < 0 ∨ (WIDTH : Int) ≤ xoff + x ∨
         3 < scanline.getD (x + xoff).toNat 0 then
        spriteXLoop g scanline row flags pal xoff fuel (x + 1) coff2 image
      else
        let colori := row (if flags &&& 0x20 ≠ 0 then (7 - x).toNat else x.toNat)
        if colori = 0 then
          spriteXLoop g scanline row flags pal xoff fuel (x + 1) coff2 image
        else if flags &&& 0x80 ≠ 0 ∧ scanline.getD (xoff + x).toNat 0 ≠ 0 then
          spriteXLoop g scanline row flags pal xoff fuel (x + 1) coff2 image
        else
          let color := pal.getD colori []
          let _ := color
          let palette := if flags &&& 0x10 ≠ 0 then g.pal.obp0 else g.pal.obp1
          let image2 := set_pixel_index image (coff2.toNat - 4) colori palette
          spriteXLoop g scanline row flags pal xoff fuel (x + 1) coff2 image2

/-- gpu.rs lines 600-674: the body of the per-sprite loop of
`render_sprites`, given the four bytes of one OAM entry.  Mirrors the
coordinate guard (line 610), the 8x16 tile-pair adjustment (lines 618-624),
the palette selection `pal` of line 635 and the vertical-flip row selection
(lines 640-644). -/
def renderSpriteEntry (g : Gpu) (scanline : List Nat) (s0 s1 s2 s3 : Nat)
    (image : Nat → Nat) : Nat → Nat :=
  let line : Int := g.ly
  let ysize : Int := if g.objsize then 16 else 8
  let yoff : Int := (s0 : Int) - 16
  let xoff : Int := (s1 : Int) - 8
  let tile : Nat := s2
  let flags : Nat := s3
  if yoff > line ∨ yoff + ysize ≤ line ∨ xoff ≤ -8 ∨ (WIDTH : Int) ≤ xoff then
    image
  else
    let ty : Nat × Int :=
      if ysize = 16 then
        let tile2 := tile &&& 0xfe
        if 8 ≤ line - yoff then (tile2 ||| 1, yoff + 8) else (tile2, yoff)
      else (tile, yoff)
    let tile2 := ty.1
    let yoff2 := ty.2
    let coff : Int := ((WIDTH : Int) * line + xoff) * 4
    let pal := if flags &&& 0x10 ≠ 0 then g.pal.obp1 else g.pal.obp0
    let tiled := g.tiles.data tile2
    let row : Nat → Nat :=
      if flags &&& 0x40 ≠ 0 then tiled (7 - (line - yoff2)).toNat
      else tiled (line - yoff2).toNat
  spriteXLoop g scanline row flags pal xoff 8 0 coff image

/-- Recursion core of `chunks4`; the fuel only bounds the recursion depth
(each step consumes at least one element, so `l.length` fuel is enough). -/
def chunksGo : Nat → List Nat → List (List Nat)
  | 0, _ => []
  | _, [] => []
  | fuel + 1, a :: l => (a :: l.take 3) :: chunksGo fuel (l.drop 3)

/-- Rust `slice::chunks(4)`: splits a list into consecutive chunks of 4, the
last chunk possibly shorter.  Used by `render_sprites` (gpu.rs line 599). -/
def chunks4 (l : List Nat) : List (List Nat) := chunksGo l.length l

/-- gpu.rs lines 599-675: the `for sprite in self.oam.chunks(4)` loop.  The
source reads `sprite[0] .. sprite[3]` of every chunk unconditionally; a
chunk shorter than 4 makes `sprite[3]` an out-of-bounds index, which aborts
the program — modelled by `none`. -/
def spritesGo (g : Gpu) (scanline : List Nat) :
    List (List Nat) → (Nat → Nat) → Option (Nat → Nat)
  | [], image => some image
  | sprite :: rest, image =>
      match sprite.get? 0, sprite.get? 1, sprite.get? 2, sprite.get? 3 with
      | some s0, some s1, some s2, some s3 =>
          spritesGo g scanline rest (renderSpriteEntry g scanline s0 s1 s2 s3 image)
      | _, _, _, _ => none

/-- gpu.rs lines 593-676: `render_sprites`. -/
def render_sprites (g : Gpu) (scanline : List Nat) : Option (Nat → Nat) :=
  spritesGo g scanline (chunks4 g.oam) g.image_data

/-- The set of `*if_ |= ...` writes performed during one `step` call, one
flag per source site: gpu.rs line 419 (`Interrupt::Vblank`), line 389
(coincidence `Interrupt::LCDStat`), line 412 (H-blank entry), line 421
(V-blank entry, `mode1int`), line 426 (OAM entry, `mode2int`).  The actual
byte OR-ed into the interrupt-flag register is `raisedBits` below. -/
structure Raised where
  vblank : Bool := false
  stat_coincidence : Bool := false
  stat_hblank : Bool := false
  stat_vblank : Bool := false
  stat_oam : Bool := false
deriving DecidableEq, Inhabited

/-- Combining the raise-sets of the two phases of `step` (both OR into the
same `if_` byte). -/
def Raised.merge (a b : Raised) : Raised :=
  { vblank := a.vblank || b.vblank,
    stat_coincidence := a.stat_coincidence || b.stat_coincidence,
    stat_hblank := a.stat_hblank || b.stat_hblank,
    stat_vblank := a.stat_vblank || b.stat_vblank,
    stat_oam := a.stat_oam || b.stat_oam }

/-- Modelled from the spec: the `cpu::Interrupt` enum is not part of this
repository (gpu.rs line 6 imports it from the cpu module).  Section 6 of the
spec says `step` ORs "two flag bits (one for V-blank, one for the shared
LCD-status class)" into the interrupt-flag byte; we model V-blank as bit 0
and LCD-status as bit 1. -/
def Interrupt.Vblank : Nat := 1

/-- Modelled from the spec: the LCD-status interrupt flag bit (see
`Interrupt.Vblank`). -/
def Interrupt.LCDStat : Nat := 2

/-- The byte OR-ed into `if_` by one `step` call, given its raise-set. -/
def raisedBits (r : Raised) : Nat :=
  (if r.vblank then Interrupt.Vblank else 0) |||
  (if r.stat_coincidence || r.stat_hblank || r.stat_vblank || r.stat_oam
   then Interrupt.LCDStat else 0)

/-- gpu.rs lines 487-506: `render_line`.  Returns `none` when the program
aborts inside `render_sprites` (see `spritesGo`).  The window branch
(lines 500-502) is an empty stub in the source. -/
def render_line (g : Gpu) : Option Gpu :=
  if !g.lcdon then some g
  else
    let scanline0 : List Nat := List.replicate WIDTH 0
    let gt :=
      if g.tiles.need_update then
        let gu := update_tileset g
        { gu with tiles.need_update := false }
      else g
    let pr := if gt.bgon then render_background gt scanline0
              else (gt.image_data, scanline0)
    let gb := { gt with image_data := pr.1 }
    if gb.objon then
      match render_sprites gb pr.2 with
      | none => none
      | some img => some { gb with image_data := img }
    else some gb

/-- gpu.rs lines 405-431: `switch`.  Sets the mode, then performs the entry
action: H-blank renders the line and conditionally raises LCDStat; V-blank
raises the V-blank interrupt and conditionally LCDStat; OAM conditionally
raises LCDStat. -/
def switch (g : Gpu) (mode : Mode) : Option (Gpu × Raised) :=
  let g2 := { g with mode := mode }
  match mode with
  | Mode.HBlank =>
      match render_line g2 with
      | none => none
      | some g3 => some (g3, { stat_hblank := g2.mode0int })
  | Mode.VBlank => some (g2, { vblank := true, stat_vblank := g2.mode1int })
  | Mode.RdOam => some (g2, { stat_oam := g2.mode2int })
  | Mode.RdVram => some (g2, {})

/-- gpu.rs lines 395-401: the sub-line mode thresholds of `step` — `clock ≤ 80`
selects OAM scan, `clock ≤ 252` VRAM read, otherwise H-blank.  (The source
writes this as a nested if/else chain that switches only when the current
mode differs; `step` below preserves that structure.) -/
def hopTarget (clk : Nat) : Mode :=
  if clk ≤ 80 then Mode.RdOam
  else if clk ≤ 252 then Mode.RdVram
  else Mode.HBlank

/-- gpu.rs lines 378-391: the line-advance block of `step`.  If the counter
(already incremented by the elapsed cycles) reached 456, subtract 456 once
and advance the line modulo 154 (lines 378-380), entering V-blank on lines
≥ 144 when not already there (lines 384-386) and raising the coincidence
LCDStat interrupt when the new line equals LYC and the enable bit is set
(lines 388-390). -/
def stepAdvance (g1 : Gpu) : Option (Gpu × Raised) :=
  if 456 ≤ g1.clock then
    let g2 := { g1 with clock := g1.clock - 456, ly := (g1.ly + 1) % 154 }
    match (if 144 ≤ g2.ly ∧ g2.mode ≠ Mode.VBlank
           then switch g2 Mode.VBlank else some (g2, {})) with
    | none => none
    | some (g3, r) =>
        if g3.ly = g3.lyc ∧ g3.lycly = true
        then some (g3, { r with stat_coincidence := true })
        else some (g3, r)
  else some (g1, {})

/-- gpu.rs lines 394-402: the mode-hop block of `step`.  For visible lines
the sub-line counter selects a mode (see `hopTarget`); the switch — and its
entry action — runs only when the selected mode differs from the current
one. -/
def stepHop (g4 : Gpu) (r : Raised) : Option (Gpu × Raised) :=
  if g4.ly < 144 then
    if g4.mode ≠ hopTarget g4.clock then
      match switch g4 (hopTarget g4.clock) with
      | none => none
      | some (g5, r2) => some (g5, r.merge r2)
    else some (g4, r)
  else some (g4, r)

/-- gpu.rs lines 371-403: `step`.  Adds the elapsed cycles to the counter
(line 374), runs the line-advance block and then the mode-hop block.
Returns the new state and the set of interrupt raises, or `none` when the
H-blank render aborts. -/
def step (g0 : Gpu) (clocks : Nat) : Option (Gpu × Raised) :=
  match stepAdvance { g0 with clock := g0.clock + clocks } with
  | none => none
  | some (g4, r) => stepHop g4 r

/-- One `step` call as seen through the interrupt-flag byte `if_`
(gpu.rs line 371: `step(&mut self, clocks, if_: &mut u8)`). -/
def step_if (g : Gpu) (clocks if_ : Nat) : Option (Gpu × Nat) :=
  (step g clocks).map (fun p => (p.1, if_ ||| raisedBits p.2))

/-- A run of `step` calls, recording the raise-set of every call.
`none` when some call aborts. -/
def runT : Gpu → List Nat → Option (Gpu × List Raised)
  | g, [] => some (g, [])
  | g, c :: cs =>
      match step g c with
      | none => none
      | some (g2, r) =>
          match runT g2 cs with
          | none => none
          | some (g3, rs) => some (g3, r :: rs)

/-- The cycle counter after one `step` call (ghost projection of `step`:
gpu.rs lines 374-379). -/
def clockAfter (clk c : Nat) : Nat :=
  if 456 ≤ clk + c then clk + c - 456 else clk + c

/-- Number of line-advance edges (counter wraps at 456) in a run of `step`
calls starting from cycle counter `clk` (ghost projection of `runT`). -/
def advCount : Nat → List Nat → Nat
  | _, [] => 0
  | clk, c :: cs => (if 456 ≤ clk + c then 1 else 0) + advCount (clockAfter clk c) cs

/-- The mode `step` leaves the machine in, as a function of the line and the
cycle counter it leaves: visible lines carry the threshold mode, V-blank
lines carry V-blank. -/
def canonMode (ly clk : Nat) : Mode :=
  if ly < 144 then hopTarget clk else Mode.VBlank

/-- The state-machine invariant: the line index is in range and the mode is
V-blank exactly on lines 144-153.  It holds at power-on (`gInit_inv`) and is
preserved by `step` (`step_inv`). -/
def GpuInv (g : Gpu) : Prop :=
  g.ly < 154 ∧ (g.ly < 144 ↔ g.mode ≠ Mode.VBlank)

instance (g : Gpu) : Decidable (GpuInv g) := by
  unfold GpuInv; infer_instance

/-- gpu.rs lines 150-207: the state built by `Gpu::new` (minus the GUI-only
fields).  The constructor zeroes the frame buffer (lines 189-191), compiles
all three palettes from 0xE4 (lines 194-196) and sets the BIOS-skip cycle
counter `0xABCC % 456` (line 199). -/
def gInit : Gpu :=
  { oam := List.replicate OAM_SIZE 0,
    image_data := fun _ => 0,
    is_cgb := false,
    is_sgb := false,
    mode := Mode.RdOam,
    clock := 0xABCC % 456,
    vrambank := fun _ => 0,
    vrambank_sel := 0,
    lcdon := false, winmap := false, winon := false, tiledata := false,
    bgmap := false, objsize := false, objon := false, bgon := false,
    lycly := false, mode2int := false, mode1int := false, mode0int := false,
    scy := 0, scx := 0, ly := 0, lyc := 0,
    bgp := 0, obp0 := 0, obp1 := 0, wy := 0, wx := 0,
    pal := { bg := update_pal 0xE4, obp0 := update_pal 0xE4, obp1 := update_pal 0xE4 },
    tiles := { data := fun _ _ _ => 0, need_update := true, to_update := fun _ => true } }

/-- Concrete state for the background-resolution evaluation: `tiledata`
clear, map byte 0 of the 0x1800 map set to 0xFF (tile index 255), tile 63
painted with color index 3 and every other tile with color index 1, and a
distinctive background palette. -/
def gBg : Gpu :=
  { gInit with
    vrambank := fun a => if a = 0x1800 then 255 else 0,
    tiles := { data := fun t _ _ => if t = 63 then 3 else 1,
               need_update := false, to_update := fun _ => false },
    pal := { gInit.pal with
             bg := [[1, 2, 3, 4], [5, 6, 7, 8], [9, 10, 11, 12], [13, 14, 15, 16]] } }

/-- `gBg` with the alternate-table flag set, to exhibit that the background
pass resolves tile indices identically in both addressing modes. -/
def gBgT : Gpu := { gBg with tiledata := true }

/-- Concrete state for the sprite-palette evaluation: 8x8 sprites, line 0,
every tile pixel holding color index 1, and distinct OBP0/OBP1 palettes. -/
def gSpr : Gpu :=
  { gInit with
    tiles := { data := fun _ _ _ => 1,
               need_update := false, to_update := fun _ => false },
    pal := { bg := gInit.pal.bg,
             obp0 := [[10, 11, 12, 13], [20, 21, 22, 23], [30, 31, 32, 33], [40, 41, 42, 43]],
             obp1 := [[50, 51, 52, 53], [60, 61, 62, 63], [70, 71, 72, 73], [80, 81, 82, 83]] } }

/-- Concrete state for the STAT-read evaluation: LY = LYC = 5 with the
coincidence-enable bit clear. -/
def gStat1 : Gpu := { gInit with ly := 5, lyc := 5, lycly := false }

/-- Concrete state for the STAT-read evaluation: LY = 1 ≠ LYC = 77 with the
coincidence-enable bit set. -/
def gStat2 : Gpu := { gInit with ly := 1, lyc := 77, lycly := true }

/-- Concrete state for the step-run evaluations: power-on state with the
cycle counter zeroed. -/
def gSeq : Gpu := { gInit with clock := 0 }

/-- Concrete state for the coincidence-interrupt evaluation: LYC = 1 with
the coincidence-enable bit set, counter zeroed. -/
def gCo : Gpu := { gInit with clock := 0, lyc := 1, lycly := true }

set_option maxRecDepth 100000

theorem decodeRowGo_length (n : Nat) : ∀ lsb msb, (decodeRowGo lsb msb n).length = n := by
  induction n with
  | zero => intro lsb msb; rfl
  | succ n ih => intro lsb msb; simp [decodeRowGo, ih]

theorem decodeRowGo_getElem (n : Nat) :
    ∀ lsb msb k, k < n →
      (decodeRowGo lsb msb n)[k]? =
        some ((((msb >>> (n - 1 - k)) &&& 1) <<< 1) ||| ((lsb >>> (n - 1 - k)) &&& 1)) := by
  induction n with
  | zero => intro lsb msb k hk; exact absurd hk (by omega)
  | succ n ih =>
      intro lsb msb k hk
      have hdef : decodeRowGo lsb msb (n + 1) =
          decodeRowGo (lsb >>> 1) (msb >>> 1) n ++ [((msb &&& 1) <<< 1) ||| (lsb &&& 1)] := rfl
      by_cases h : k < n
      · have hlen : k < (decodeRowGo (lsb >>> 1) (msb >>> 1) n).length := by
          rw [decodeRowGo_length]; exact h
        rw [hdef, List.getElem?_append_left hlen, ih (lsb >>> 1) (msb >>> 1) k h]
        have e : 1 + (n - 1 - k) = n + 1 - 1 - k := by omega
        rw [← Nat.shiftRight_add, ← Nat.shiftRight_add, e]
      · have hk2 : k = n := by omega
        subst hk2
        rw [hdef, List.getElem?_append_right (by rw [decodeRowGo_length])]
        simp [decodeRowGo_length]

/-- Claim C9: decoding the tile row with plane bytes 0b00011011 (LSB) and
0b01101010 (MSB) yields the color-index row [0,2,2,1,3,0,3,1] left to
right, and in general pixel k of a decoded row takes the 2-bit value formed
from bit (7−k) of the MSB plane (high bit) and bit (7−k) of the LSB plane
(low bit), so bit 7 is the leftmost pixel and bit 0 the rightmost. -/
theorem c9_tile_row_decode :
    decodeRow 0b00011011 0b01101010 = [0, 2, 2, 1, 3, 0, 3, 1] ∧
    ∀ lsb msb k, k < 8 →
      (decodeRow lsb msb)[k]? =
        some ((((msb >>> (7 - k)) &&& 1) <<< 1) ||| ((lsb >>> (7 - k)) &&& 1)) := by
  refine ⟨by decide, fun lsb msb k hk => ?_⟩
  have h := decodeRowGo_getElem 8 lsb msb k hk
  have e : (8 : Nat) - 1 - k = 7 - k := by omega
  rw [e] at h
  exact h

/-- Witness for c9_tile_row_decode: pixel 0 of the row decoded from
LSB plane 0b10000000 and MSB plane 0 has color index 1. -/
theorem c9_witness : (decodeRow 0b10000000 0)[0]? = some 1 := by
  have h := c9_tile_row_decode.2 0b10000000 0 0 (by omega)
  simpa using h

/-- Claim C1 (code bug): the sprite table is declared with
OAM_SIZE = 0x9F = 159 bytes, although the source's own entry constants give
4 × 40 = 160; `chunks(4)` over it yields 40 chunks whose last has only
3 bytes, so the unconditional read of `sprite[3]` in `render_sprites`
(gpu.rs line 603) is out of bounds and the sprite pass aborts. -/
theorem c1_oam_size_bug :
    OAM_SIZE = 159 ∧ OAM_ENTRY_SIZE * OBJ_COUNT = 160 ∧
    (chunks4 (List.replicate OAM_SIZE 0)).length = OBJ_COUNT ∧
    ((chunks4 (List.replicate OAM_SIZE 0)).getLast?.map List.length) = some 3 ∧
    ((chunks4 (List.replicate OAM_SIZE 0)).getLast?.bind (fun s => s[3]?)) = none ∧
    (render_sprites gInit (List.replicate WIDTH 0)).isNone = true := by decide

/-- Claim C2 (code bug): the background pass resolves the fetched tile-index
byte as `tilei % 192` (gpu.rs line 554), identically whether `tiledata` is
set or clear — the signed `add_tilei` resolution demanded by the claim (and
implemented, unused, at lines 508-516) is commented out.  On `gBg`
(tiledata clear, map byte 255), pixel 0 is painted from tile 255 % 192 = 63
(background color 13), not from the signed resolution 256 + (−1) = 255
(background color 5), and flipping `tiledata` changes nothing. -/
theorem c2_signed_index_ignored :
    gBg.tiledata = false ∧ gBgT.tiledata = true ∧
    (render_background gBg (List.replicate WIDTH 0)).1 0 = 13 ∧
    (render_background gBgT (List.replicate WIDTH 0)).1 0 = 13 ∧
    add_tilei gBg 256 255 = 255 ∧ (255 : Nat) % 192 = 63 ∧
    gBg.tiles.data 63 0 0 = 3 ∧ gBg.tiles.data 255 0 0 = 1 ∧
    (gBg.pal.bg.getD 3 []).getD 0 0 = 13 ∧ (gBg.pal.bg.getD 1 []).getD 0 0 = 5 := by
  decide

/-- Claim C3 (code bug): the color actually written to the frame buffer for
a sprite with flags bit 4 SET comes from OBP0 (and with bit 4 clear from
OBP1): on `gSpr`, a bit-4-set sprite paints pixel 0 with 20 = OBP0 color 1,
not 60 = OBP1 color 1, and a bit-4-clear sprite paints 60.  This is the
reversed `palette` selection of gpu.rs line 672, which overrides the correct
`pal` of line 635 at the `set_pixel_index` call on line 673. -/
theorem c3_sprite_palette_swapped :
    (renderSpriteEntry gSpr (List.replicate WIDTH 0) 16 8 0 0x10 (fun _ => 0)) 0 = 20 ∧
    (renderSpriteEntry gSpr (List.replicate WIDTH 0) 16 8 0 0 (fun _ => 0)) 0 = 60 ∧
    (gSpr.pal.obp0.getD 1 []).getD 0 0 = 20 ∧
    (gSpr.pal.obp1.getD 1 []).getD 0 0 = 60 ∧
    (0x10 : Nat) &&& 0x10 ≠ 0 := by decide

/-- Claim C4 (code bug): bit 2 of a status-port read is NOT `LY = LYC`: the
source compares `self.lycly as u8` with `self.ly` (gpu.rs line 300).  With
LY = LYC = 5 and the enable bit clear the bit reads 0; with LY = 1 ≠ LYC = 77
and the enable bit set (so `lycly as u8 = 1 = ly`) it reads 1. -/
theorem c4_stat_coincidence_bit_bug :
    gStat1.ly = gStat1.lyc ∧ rb gStat1 0x41 &&& 4 = 0 ∧
    gStat2.ly ≠ gStat2.lyc ∧ rb gStat2 0x41 &&& 4 = 4 := by decide

/-- Counterexample for claim C7: in non-color mode, reading port 0x4F
returns the stored bank-select value 0, not the all-ones sentinel 0xFF
(gpu.rs line 314 returns `self.vrambank_sel` unconditionally). -/
theorem c7_sentinel_counterexample :
    gInit.is_cgb = false ∧ rb gInit 0x4f = 0 ∧ rb gInit 0x4f ≠ 0xff := by decide

/-- Claim C7 as amended: when the device is not in color mode, writing port
0x4F leaves the whole state unchanged, and reading it returns the stored
bank-select value (0 unless previously set in color mode) rather than a
0xFF sentinel. -/
theorem c7_bank_select_noncgb (g : Gpu) (v : Nat) (h : g.is_cgb = false) :
    wb g 0x4f v = g ∧ rb g 0x4f = g.vrambank_sel := by
  constructor
  · simp [wb, h]
  · simp [rb]

/-- Witness for c7_bank_select_noncgb at the power-on state. -/
theorem c7_witness : wb gInit 0x4f 1 = gInit ∧ rb gInit 0x4f = gInit.vrambank_sel :=
  c7_bank_select_noncgb gInit 1 rfl

/-- Claim C10: every frame-buffer pixel write of the background and sprite
passes goes through `set_pixel_index`, which stores the palette color's red
component into the alpha byte (offset 3) as well as the red byte — so the
written alpha always equals the written red, not a constant 255.  The two
closing conjuncts evaluate this on an actual background-pass pixel and an
actual sprite-pass pixel. -/
theorem c10_alpha_is_red :
    (∀ (image : Nat → Nat) (fb colori : Nat) (pal : Palette),
        set_pixel_index image fb colori pal (fb + 3) = (pal.getD colori []).getD 0 0 ∧
        set_pixel_index image fb colori pal (fb + 3) =
          set_pixel_index image fb colori pal fb) ∧
    (render_background gBg (List.replicate WIDTH 0)).1 3 =
      (render_background gBg (List.replicate WIDTH 0)).1 0 ∧
    (renderSpriteEntry gSpr (List.replicate WIDTH 0) 16 8 0 0x10 (fun _ => 0)) 3 =
      (renderSpriteEntry gSpr (List.replicate WIDTH 0) 16 8 0 0x10 (fun _ => 0)) 0 := by
  refine ⟨fun image fb colori pal => ?_, by decide, by decide⟩
  have h1 : fb ≠ fb + 1 := by omega
  have h2 : fb ≠ fb + 2 := by omega
  have h3 : fb ≠ fb + 3 := by omega
  constructor
  · simp [set_pixel_index, fupd]
  · simp [set_pixel_index, fupd, h1, h2, h3, Ne.symm h1, Ne.symm h2, Ne.symm h3]

/-- `switch` to V-blank never aborts: its entry action does not render. -/
theorem switch_vblank (g : Gpu) :
    switch g Mode.VBlank =
      some ({ g with mode := Mode.VBlank },
            { vblank := true, stat_vblank := g.mode1int }) := rfl

/-- `render_line` touches only the frame buffer and the tile cache. -/
theorem render_line_preserves (g g2 : Gpu) (h : render_line g = some g2) :
    g2.clock = g.clock ∧ g2.ly = g.ly ∧ g2.mode = g.mode ∧ g2.lyc = g.lyc ∧
    g2.lycly = g.lycly := by
  unfold render_line at h
  split at h
  · obtain rfl := Option.some.inj h
    exact ⟨rfl, rfl, rfl, rfl, rfl⟩
  · dsimp only at h
    split at h <;> split at h <;>
      first
        | (obtain rfl := Option.some.inj h
           constructor <;> simp [update_tileset])
        | (split at h
           · exact absurd h (by simp)
           · obtain rfl := Option.some.inj h
             constructor <;> simp [update_tileset])

/-- A completed `switch` sets exactly the requested mode, preserves the
timing registers, raises the V-blank interrupt exactly for V-blank entry,
and never raises the coincidence interrupt. -/
theorem switch_spec (g : Gpu) (m : Mode) (g2 : Gpu) (r : Raised)
    (h : switch g m = some (g2, r)) :
    g2.clock = g.clock ∧ g2.ly = g.ly ∧ g2.lyc = g.lyc ∧ g2.lycly = g.lycly ∧
    g2.mode = m ∧ (r.vblank = true ↔ m = Mode.VBlank) ∧
    r.stat_coincidence = false := by
  cases m <;> dsimp only [switch] at h
  case HBlank =>
    rcases hrl : render_line { g with mode := Mode.HBlank } with _ | g3
    · rw [hrl] at h; exact absurd h (by simp)
    · rw [hrl] at h
      obtain ⟨h1, h2⟩ := Prod.mk.injEq .. ▸ Option.some.inj h
      obtain ⟨hc, hy, hm, hlc, hll⟩ := render_line_preserves _ _ hrl
      subst h1; subst h2
      refine ⟨hc, hy, hlc, hll, hm, by simp, rfl⟩
  case VBlank =>
    obtain ⟨h1, h2⟩ := Prod.mk.injEq .. ▸ Option.some.inj h
    subst h1; subst h2
    exact ⟨rfl, rfl, rfl, rfl, rfl, by simp, rfl⟩
  case RdOam =>
    obtain ⟨h1, h2⟩ := Prod.mk.injEq .. ▸ Option.some.inj h
    subst h1; subst h2
    exact ⟨rfl, rfl, rfl, rfl, rfl, by simp, rfl⟩
  case RdVram =>
    obtain ⟨h1, h2⟩ := Prod.mk.injEq .. ▸ Option.some.inj h
    subst h1; subst h2
    exact ⟨rfl, rfl, rfl, rfl, rfl, by simp, rfl⟩

/-- The sub-line thresholds never select V-blank. -/
theorem hopTarget_ne_vblank (clk : Nat) : hopTarget clk ≠ Mode.VBlank := by
  unfold hopTarget
  split
  · simp
  · split <;> simp

/-- Characterization of the line-advance block of `step`. -/
theorem stepAdvance_spec (g1 g4 : Gpu) (r1 : Raised)
    (h : stepAdvance g1 = some (g4, r1)) :
    g4.clock = (if 456 ≤ g1.clock then g1.clock - 456 else g1.clock) ∧
    g4.ly = (if 456 ≤ g1.clock then (g1.ly + 1) % 154 else g1.ly) ∧
    g4.lyc = g1.lyc ∧ g4.lycly = g1.lycly ∧
    g4.mode = (if 456 ≤ g1.clock ∧ 144 ≤ (g1.ly + 1) % 154 ∧ g1.mode ≠ Mode.VBlank
               then Mode.VBlank else g1.mode) ∧
    (r1.vblank = true ↔
      456 ≤ g1.clock ∧ 144 ≤ (g1.ly + 1) % 154 ∧ g1.mode ≠ Mode.VBlank) ∧
    (r1.stat_coincidence = true ↔
      456 ≤ g1.clock ∧ (g1.ly + 1) % 154 = g1.lyc ∧ g1.lycly = true) := by
  unfold stepAdvance at h
  split at h
  case isTrue hadv =>
    dsimp only at h
    split at h
    next heq2 => exact absurd h (by simp)
    next g3 r0 heq2 =>
      split at heq2
      case isTrue hvb =>
        rw [switch_vblank] at heq2
        obtain ⟨h1, h2⟩ := Prod.mk.injEq .. ▸ Option.some.inj heq2
        subst h1; subst h2
        split at h
        case isTrue hco =>
          obtain ⟨h3, h4⟩ := Prod.mk.injEq .. ▸ Option.some.inj h
          subst h3; subst h4
          exact ⟨by simp [hadv], by simp [hadv], rfl, rfl,
            by rw [if_pos ⟨hadv, hvb.1, hvb.2⟩],
            iff_of_true rfl ⟨hadv, hvb.1, hvb.2⟩,
            iff_of_true rfl ⟨hadv, hco.1, hco.2⟩⟩
        case isFalse hco =>
          obtain ⟨h3, h4⟩ := Prod.mk.injEq .. ▸ Option.some.inj h
          subst h3; subst h4
          exact ⟨by simp [hadv], by simp [hadv], rfl, rfl,
            by rw [if_pos ⟨hadv, hvb.1, hvb.2⟩],
            iff_of_true rfl ⟨hadv, hvb.1, hvb.2⟩,
            iff_of_false (by simp) (fun hx => hco ⟨hx.2.1, hx.2.2⟩)⟩
      case isFalse hvb =>
        obtain ⟨h1, h2⟩ := Prod.mk.injEq .. ▸ Option.some.inj heq2
        subst h1; subst h2
        split at h
        case isTrue hco =>
          obtain ⟨h3, h4⟩ := Prod.mk.injEq .. ▸ Option.some.inj h
          subst h3; subst h4
          exact ⟨by simp [hadv], by simp [hadv], rfl, rfl,
            by rw [if_neg (fun hx => hvb ⟨hx.2.1, hx.2.2⟩)],
            iff_of_false (by simp) (fun hx => hvb ⟨hx.2.1, hx.2.2⟩),
            iff_of_true rfl ⟨hadv, hco.1, hco.2⟩⟩
        case isFalse hco =>
          obtain ⟨h3, h4⟩ := Prod.mk.injEq .. ▸ Option.some.inj h
          subst h3; subst h4
          exact ⟨by simp [hadv], by simp [hadv], rfl, rfl,
            by rw [if_neg (fun hx => hvb ⟨hx.2.1, hx.2.2⟩)],
            iff_of_false (by simp) (fun hx => hvb ⟨hx.2.1, hx.2.2⟩),
            iff_of_false (by simp) (fun hx => hco ⟨hx.2.1, hx.2.2⟩)⟩
  case isFalse hadv =>
    obtain ⟨h1, h2⟩ := Prod.mk.injEq .. ▸ Option.some.inj h
    subst h1; subst h2
    exact ⟨by simp [hadv], by simp [hadv], rfl, rfl,
      by rw [if_neg (fun hx => hadv hx.1)],
      iff_of_false (by simp) (fun hx => hadv hx.1),
      iff_of_false (by simp) (fun hx => hadv hx.1)⟩

/-- Characterization of the mode-hop block of `step`: it preserves the
timing registers and the V-blank/coincidence raises, and for visible lines
leaves the threshold mode. -/
theorem stepHop_spec (g4 : Gpu) (r : Raised) (g2 : Gpu) (rr : Raised)
    (h : stepHop g4 r = some (g2, rr)) :
    g2.clock = g4.clock ∧ g2.ly = g4.ly ∧ g2.lyc = g4.lyc ∧ g2.lycly = g4.lycly ∧
    g2.mode = (if g4.ly < 144 then hopTarget g4.clock else g4.mode) ∧
    rr.vblank = r.vblank ∧ rr.stat_coincidence = r.stat_coincidence := by
  unfold stepHop at h
  split at h
  case isTrue hll =>
    split at h
    case isTrue hne =>
      rcases hsw : switch g4 (hopTarget g4.clock) with _ | p
      · rw [hsw] at h; exact absurd h (by simp)
      · obtain ⟨g5, r2⟩ := p
        rw [hsw] at h
        dsimp only at h
        obtain ⟨h1, h2⟩ := Prod.mk.injEq .. ▸ Option.some.inj h
        subst h1; subst h2
        obtain ⟨hc5, hy5, hlc5, hll5, hm5, hv5, hs5⟩ := switch_spec _ _ _ _ hsw
        have hv5f : r2.vblank = false := by
          rcases hb : r2.vblank with _ | _
          · rfl
          · exact absurd (hv5.mp hb) (hopTarget_ne_vblank _)
        exact ⟨hc5, hy5, hlc5, hll5, by rw [hm5, if_pos hll],
          by simp [Raised.merge, hv5f], by simp [Raised.merge, hs5]⟩
    case isFalse hne =>
      obtain ⟨h1, h2⟩ := Prod.mk.injEq .. ▸ Option.some.inj h
      subst h1; subst h2
      push_neg at hne
      exact ⟨rfl, rfl, rfl, rfl, by rw [if_pos hll]; exact hne, rfl, rfl⟩
  case isFalse hll =>
    obtain ⟨h1, h2⟩ := Prod.mk.injEq .. ▸ Option.some.inj h
    subst h1; subst h2
    exact ⟨rfl, rfl, rfl, rfl, by rw [if_neg hll], rfl, rfl⟩

/-- Characterization of one completed `step` call: counter and line
evolution, register preservation, the raise conditions for the V-blank and
coincidence interrupts, and the mode left behind. -/
theorem step_spec (g : Gpu) (c : Nat) (g2 : Gpu) (r : Raised)
    (h : step g c = some (g2, r)) :
    g2.clock = clockAfter g.clock c ∧
    g2.ly = (if 456 ≤ g.clock + c then (g.ly + 1) % 154 else g.ly) ∧
    g2.lyc = g.lyc ∧ g2.lycly = g.lycly ∧
    (r.vblank = true ↔
      456 ≤ g.clock + c ∧ 144 ≤ (g.ly + 1) % 154 ∧ g.mode ≠ Mode.VBlank) ∧
    (r.stat_coincidence = true ↔
      456 ≤ g.clock + c ∧ (g.ly + 1) % 154 = g.lyc ∧ g.lycly = true) ∧
    (g2.ly < 144 → g2.mode = hopTarget g2.clock) ∧
    (144 ≤ g2.ly → g2.mode = Mode.VBlank ∨
      (¬ 456 ≤ g.clock + c ∧ g2.mode = g.mode)) := by
  unfold step at h
  rcases ha : stepAdvance { g with clock := g.clock + c } with _ | p
  · rw [ha] at h; exact absurd h (by simp)
  · obtain ⟨g4, r1⟩ := p
    rw [ha] at h
    dsimp only at h
    obtain ⟨ha1, ha2, ha3, ha4, ha5, ha6, ha7⟩ := stepAdvance_spec _ _ _ ha
    obtain ⟨hh1, hh2, hh3, hh4, hh5, hh6, hh7⟩ := stepHop_spec _ _ _ _ h
    dsimp only at ha1 ha2 ha3 ha4 ha5 ha6 ha7
    refine ⟨by rw [hh1, ha1]; unfold clockAfter; rfl,
      by rw [hh2, ha2], by rw [hh3, ha3], by rw [hh4, ha4],
      by rw [hh6]; exact ha6, by rw [hh7]; exact ha7, ?_, ?_⟩
    · intro hlt
      rw [hh5, hh1]
      rw [hh2] at hlt
      rw [if_pos hlt]
    · intro hge
      rw [hh2] at hge
      rw [hh5, if_neg (by omega), ha5]
      by_cases hadv : 456 ≤ g.clock + c
      · rw [ha2, if_pos hadv] at hge
        by_cases hm : g.mode = Mode.VBlank
        · rw [if_neg (fun hx => hx.2.2 hm)]
          exact Or.inl hm
        · rw [if_pos ⟨hadv, hge, hm⟩]
          exact Or.inl rfl
      · rw [if_neg (fun hx => hadv hx.1)]
        exact Or.inr ⟨hadv, rfl⟩

/-- The machine invariant `GpuInv` is preserved by every completed `step`. -/
theorem step_inv (g : Gpu) (c : Nat) (g2 : Gpu) (r : Raised)
    (h : step g c = some (g2, r)) (hi : GpuInv g) : GpuInv g2 := by
  obtain ⟨h1, h2, _, _, _, _, h7, h8⟩ := step_spec _ _ _ _ h
  obtain ⟨hly, hiff⟩ := hi
  constructor
  · rw [h2]; split <;> omega
  · by_cases hlt : g2.ly < 144
    · rw [h7 hlt]
      exact iff_of_true hlt (hopTarget_ne_vblank _)
    · rcases h8 (by omega) with hmv | ⟨hna, hmm⟩
      · rw [hmv]
        exact iff_of_false hlt (by simp)
      · rw [hmm, h2, if_neg hna]
        exact hiff

/-- Under the machine invariant, a `step` call raises the V-blank interrupt
exactly when it advances the line and the old line is 143. -/
theorem step_vblank_iff (g : Gpu) (c : Nat) (g2 : Gpu) (r : Raised)
    (h : step g c = some (g2, r)) (hi : GpuInv g) :
    (r.vblank = true ↔ 456 ≤ g.clock + c ∧ g.ly = 143) := by
  obtain ⟨_, _, _, _, h5, _, _, _⟩ := step_spec _ _ _ _ h
  obtain ⟨hly, hiff⟩ := hi
  rw [h5]
  constructor
  · rintro ⟨ha, hb, hm⟩
    have := hiff.mpr hm
    exact ⟨ha, by omega⟩
  · rintro ⟨ha, hb⟩
    exact ⟨ha, by omega, hiff.mp (by omega)⟩

/-- Under the machine invariant, `step` always leaves the mode determined by
the line and cycle counter it leaves. -/
theorem step_canon (g : Gpu) (c : Nat) (g2 : Gpu) (r : Raised)
    (h : step g c = some (g2, r)) (hi : GpuInv g) :
    g2.mode = canonMode g2.ly g2.clock := by
  obtain ⟨_, h2, _, _, _, _, h7, h8⟩ := step_spec _ _ _ _ h
  unfold canonMode
  by_cases hlt : g2.ly < 144
  · rw [if_pos hlt]; exact h7 hlt
  · rw [if_neg hlt]
    rcases h8 (by omega) with hmv | ⟨hna, hmm⟩
    · exact hmv
    · rw [hmm]
      rw [h2, if_neg hna] at hlt
      by_cases hm : g.mode = Mode.VBlank
      · exact hm
      · exact absurd (hi.2.mpr hm) hlt

/-- Destructor for a completed run: the first step and the rest both
complete. -/
theorem runT_cons_some (g g3 : Gpu) (c : Nat) (cs : List Nat) (rs : List Raised)
    (h : runT g (c :: cs) = some (g3, rs)) :
    ∃ g2 r rs2, step g c = some (g2, r) ∧ runT g2 cs = some (g3, rs2) ∧
      rs = r :: rs2 := by
  unfold runT at h
  rcases hs : step g c with _ | p
  · rw [hs] at h; exact absurd h (by simp)
  · obtain ⟨g2, r⟩ := p
    rw [hs] at h
    dsimp only at h
    rcases hr : runT g2 cs with _ | q
    · rw [hr] at h; exact absurd h (by simp)
    · obtain ⟨g3x, rs2⟩ := q
      rw [hr] at h
      dsimp only at h
      obtain ⟨h1, h2⟩ := Prod.mk.injEq .. ▸ Option.some.inj h
      subst h1; subst h2
      exact ⟨_, _, _, rfl, hr, rfl⟩

/-- The machine invariant is preserved by completed runs. -/
theorem runT_inv (cs : List Nat) : ∀ g g2 rs, GpuInv g →
    runT g cs = some (g2, rs) → GpuInv g2 := by
  induction cs with
  | nil =>
      intro g g2 rs hi h
      obtain ⟨h1, h2⟩ := Prod.mk.injEq .. ▸ Option.some.inj h
      subst h1; exact hi
  | cons c cs ih =>
      intro g g2 rs hi h
      obtain ⟨gm, r, rs2, hs, hr, rfl⟩ := runT_cons_some _ _ _ _ _ h
      exact ih gm g2 rs2 (step_inv _ _ _ _ hs hi) hr

/-- In a completed run whose calls are each at most 456 cycles, the cycle
counter and the number of line advances are determined by the total. -/
theorem runT_clock (cs : List Nat) : ∀ g g2 rs, (∀ x ∈ cs, x ≤ 456) →
    g.clock < 456 → runT g cs = some (g2, rs) →
    g2.clock = (g.clock + cs.sum) % 456 ∧
    advCount g.clock cs = (g.clock + cs.sum) / 456 ∧ g2.clock < 456 := by
  induction cs with
  | nil =>
      intro g g2 rs _ hck h
      obtain ⟨h1, h2⟩ := Prod.mk.injEq .. ▸ Option.some.inj h
      subst h1
      refine ⟨by simp; omega, by simp [advCount]; omega, hck⟩
  | cons c cs ih =>
      intro g g2 rs hb hck h
      obtain ⟨gm, r, rs2, hs, hr, rfl⟩ := runT_cons_some _ _ _ _ _ h
      obtain ⟨hc1, _⟩ := step_spec _ _ _ _ hs
      have hcb : c ≤ 456 := hb c (by simp)
      have hbm : ∀ x ∈ cs, x ≤ 456 := fun x hx => hb x (by simp [hx])
      have hlt : gm.clock < 456 := by
        rw [hc1]; unfold clockAfter; split <;> omega
      obtain ⟨e1, e2, e3⟩ := ih gm g2 rs2 hbm hlt hr
      have hadvc : advCount g.clock (c :: cs) =
          (if 456 ≤ g.clock + c then 1 else 0) + advCount (clockAfter g.clock c) cs :=
        rfl
      refine ⟨?_, ?_, e3⟩
      · rw [e1, hc1]
        simp only [List.sum_cons]
        unfold clockAfter
        split <;> omega
      · rw [hadvc]
        have e2b : advCount (clockAfter g.clock c) cs =
            (clockAfter g.clock c + cs.sum) / 456 := by rw [← hc1]; exact e2
        rw [e2b]
        simp only [List.sum_cons]
        unfold clockAfter
        split <;> omega

/-- The line index after a completed run advances by the number of
line-advance edges, modulo 154. -/
theorem runT_ly (cs : List Nat) : ∀ g g2 rs, g.ly < 154 →
    runT g cs = some (g2, rs) →
    g2.ly = (g.ly + advCount g.clock cs) % 154 := by
  induction cs with
  | nil =>
      intro g g2 rs hly h
      obtain ⟨h1, h2⟩ := Prod.mk.injEq .. ▸ Option.some.inj h
      subst h1
      show g.ly = (g.ly + advCount g.clock []) % 154
      simp [advCount]; omega
  | cons c cs ih =>
      intro g g2 rs hly h
      obtain ⟨gm, r, rs2, hs, hr, rfl⟩ := runT_cons_some _ _ _ _ _ h
      obtain ⟨hc1, hc2, _⟩ := step_spec _ _ _ _ hs
      have hlym : gm.ly < 154 := by rw [hc2]; split <;> omega
      have hrec := ih gm g2 rs2 hlym hr
      have hadvc : advCount g.clock (c :: cs) =
          (if 456 ≤ g.clock + c then 1 else 0) + advCount (clockAfter g.clock c) cs :=
        rfl
      rw [hrec, hadvc, hc2, hc1]
      by_cases hadv : 456 ≤ g.clock + c
      · simp only [if_pos hadv]
        omega
      · simp only [if_neg hadv]
        omega

/-- After any nonempty completed run from an invariant state, the mode is
the canonical function of line and cycle counter. -/
theorem runT_canon (cs : List Nat) : ∀ g g2 rs, GpuInv g → cs ≠ [] →
    runT g cs = some (g2, rs) → g2.mode = canonMode g2.ly g2.clock := by
  induction cs with
  | nil => intro g g2 rs _ hne _; exact absurd rfl hne
  | cons c cs ih =>
      intro g g2 rs hi _ h
      obtain ⟨gm, r, rs2, hs, hr, rfl⟩ := runT_cons_some _ _ _ _ _ h
      rcases cs with _ | ⟨c2, cs2⟩
      · unfold runT at hr
        obtain ⟨h1, h2⟩ := Prod.mk.injEq .. ▸ Option.some.inj hr
        subst h1
        exact step_canon _ _ _ _ hs hi
      · exact ih gm g2 rs2 (step_inv _ _ _ _ hs hi) (by simp) hr

/-- Exactly one offset in a window of 154 consecutive line advances starts
from line 143. -/
theorem card_hit (a : Nat) (h : a < 154) :
    ((Finset.range 154).filter (fun k => (a + k) % 154 = 143)).card = 1 := by
  have he : (Finset.range 154).filter (fun k => (a + k) % 154 = 143) =
      {if a ≤ 143 then 143 - a else 297 - a} := by
    ext k
    simp only [Finset.mem_filter, Finset.mem_range, Finset.mem_singleton]
    split <;> omega
  rw [he]
  exact Finset.card_singleton _

/-- The number of V-blank raises in a completed run equals the number of
line-advance edges whose starting line is 143. -/
theorem runT_vcount (cs : List Nat) : ∀ g g2 rs, GpuInv g →
    runT g cs = some (g2, rs) →
    rs.countP (fun x => x.vblank) =
      ((Finset.range (advCount g.clock cs)).filter
        (fun k => (g.ly + k) % 154 = 143)).card := by
  induction cs with
  | nil =>
      intro g g2 rs _ h
      obtain ⟨h1, h2⟩ := Prod.mk.injEq .. ▸ Option.some.inj h
      subst h2
      simp [advCount]
  | cons c cs ih =>
      intro g g2 rs hi h
      obtain ⟨gm, r, rs2, hs, hr, rfl⟩ := runT_cons_some _ _ _ _ _ h
      have him : GpuInv gm := step_inv _ _ _ _ hs hi
      have hv := step_vblank_iff _ _ _ _ hs hi
      obtain ⟨hc1, hc2, _⟩ := step_spec _ _ _ _ hs
      have hcount := ih gm g2 rs2 him hr
      rw [List.countP_cons, hcount]
      have hadvc : advCount g.clock (c :: cs) =
          (if 456 ≤ g.clock + c then 1 else 0) + advCount (clockAfter g.clock c) cs :=
        rfl
      rw [hadvc, ← hc1]
      by_cases hadv : 456 ≤ g.clock + c
      · simp only [if_pos hadv]
        rw [Nat.add_comm 1 (advCount gm.clock cs)]
        have hgm : gm.ly = (g.ly + 1) % 154 := by rw [hc2, if_pos hadv]
        rw [Finset.card_filter, Finset.card_filter, Finset.sum_range_succ']
        have hsum : (∑ i in Finset.range (advCount gm.clock cs),
            if (g.ly + (i + 1)) % 154 = 143 then (1 : Nat) else 0) =
            ∑ i in Finset.range (advCount gm.clock cs),
            if (gm.ly + i) % 154 = 143 then (1 : Nat) else 0 := by
          refine Finset.sum_congr rfl fun i _ => ?_
          have he2 : (g.ly + (i + 1)) % 154 = (gm.ly + i) % 154 := by
            rw [hgm]; omega
          rw [he2]
        rw [hsum]
        have hind : (if r.vblank = true then (1 : Nat) else 0) =
            if (g.ly + 0) % 154 = 143 then (1 : Nat) else 0 := by
          by_cases hy : g.ly = 143
          · rw [if_pos, if_pos]
            · have : g.ly < 154 := hi.1
              omega
            · show r.vblank = true
              exact hv.mpr ⟨hadv, hy⟩
          · rw [if_neg, if_neg]
            · have : g.ly < 154 := hi.1
              omega
            · show ¬ r.vblank = true
              intro hb
              exact hy (hv.mp hb).2
        rw [hind]
      · simp only [if_neg hadv, Nat.zero_add]
        have hgm : gm.ly = g.ly := by rw [hc2, if_neg hadv]
        have hvf : r.vblank = false := by
          rcases hb : r.vblank with _ | _
          · rfl
          · exact absurd (hv.mp hb).1 hadv
        have hind : (if r.vblank = true then (1 : Nat) else 0) = 0 := by
          simp [hvf]
        rw [hind, Nat.add_zero, hgm]

/-- Any call of a completed run that raises the V-blank interrupt starts at
line 143 and advances the line. -/
theorem runT_vloc (cs : List Nat) : ∀ g g2 rs, GpuInv g →
    runT g cs = some (g2, rs) →
    ∀ k, k < cs.length → (rs.getD k default).vblank = true →
    ∃ gk rsk, runT g (cs.take k) = some (gk, rsk) ∧ gk.ly = 143 ∧
      456 ≤ gk.clock + cs.getD k 0 := by
  induction cs with
  | nil => intro g g2 rs _ _ k hk _; exact absurd hk (by simp)
  | cons c cs ih =>
      intro g g2 rs hi h k hk hv
      obtain ⟨gm, r, rs2, hs, hr, rfl⟩ := runT_cons_some _ _ _ _ _ h
      rcases k with _ | k
      · rw [List.getD_cons_zero] at hv
        obtain ⟨hadv, hy⟩ := (step_vblank_iff _ _ _ _ hs hi).mp hv
        refine ⟨g, [], rfl, hy, ?_⟩
        rw [List.getD_cons_zero]
        exact hadv
      · rw [List.getD_cons_succ] at hv
        have hkk : k < cs.length := by simpa using hk
        obtain ⟨gk, rsk, hrun, hly, hcl⟩ :=
          ih gm g2 rs2 (step_inv _ _ _ _ hs hi) hr k hkk hv
        refine ⟨gk, r :: rsk, ?_, hly, by rwa [List.getD_cons_succ]⟩
        show runT g (c :: cs.take k) = some (gk, r :: rsk)
        unfold runT
        rw [hs]
        dsimp only
        rw [hrun]

/-- Claim C5: over any completed run of `step` calls containing exactly 154
line-advance edges (one full 154-line cycle, no register writes in between),
starting from a state satisfying the machine invariant, the V-blank
interrupt bit is OR-ed into the interrupt-flag byte exactly once, and every
call that raises it starts at line 143 and advances (so the raise happens at
the 143 → 144 transition and at no other line). -/
theorem c5_vblank_once (g : Gpu) (cs : List Nat) (hinv : GpuInv g)
    (hsome : (runT g cs).isSome = true)
    (hadv : advCount g.clock cs = 154) :
    (runT g cs).map (fun p => p.2.countP (fun x => x.vblank)) = some 1 ∧
    ∀ k, k < cs.length →
      (runT g cs).map (fun p => (p.2.getD k default).vblank) = some true →
      ∃ gk rsk, runT g (cs.take k) = some (gk, rsk) ∧ gk.ly = 143 ∧
        (gk.ly + 1) % 154 = 144 ∧ 456 ≤ gk.clock + cs.getD k 0 := by
  obtain ⟨p, hp⟩ := Option.isSome_iff_exists.mp hsome
  obtain ⟨g2, rs⟩ := p
  constructor
  · rw [hp]
    simp only [Option.map_some', Option.some.injEq]
    rw [runT_vcount cs g g2 rs hinv hp, hadv, card_hit g.ly hinv.1]
  · intro k hk hvb
    rw [hp] at hvb
    simp only [Option.map_some', Option.some.injEq] at hvb
    obtain ⟨gk, rsk, hrun, hly, hcl⟩ := runT_vloc cs g g2 rs hinv hp k hk hvb
    exact ⟨gk, rsk, hrun, hly, by omega, hcl⟩

/-- Witness for c5_vblank_once: the power-on state stepped 154 times by one
full scanline (456 cycles) each. -/
theorem c5_witness :
    ((runT gSeq (List.replicate 154 456)).map
        (fun p => p.2.countP (fun x => x.vblank)) = some 1) ∧
    ∀ k, k < (List.replicate 154 456).length →
      (runT gSeq (List.replicate 154 456)).map
          (fun p => (p.2.getD k default).vblank) = some true →
      ∃ gk rsk, runT gSeq ((List.replicate 154 456).take k) = some (gk, rsk) ∧
        gk.ly = 143 ∧ (gk.ly + 1) % 154 = 144 ∧
        456 ≤ gk.clock + (List.replicate 154 456).getD k 0 :=
  c5_vblank_once gSeq (List.replicate 154 456) (by decide) (by decide) (by decide)

/-- Claim C6: during a completed `step` call the coincidence LCDStat raise
happens if and only if a line-advance edge occurs in that call, the new line
index equals LYC, and the coincidence-enable bit is set. -/
theorem c6_coincidence_iff (g : Gpu) (c : Nat)
    (hsome : (step g c).isSome = true) :
    (step g c).map (fun p => p.2.stat_coincidence) = some true ↔
      456 ≤ g.clock + c ∧ (g.ly + 1) % 154 = g.lyc ∧ g.lycly = true := by
  obtain ⟨p, hp⟩ := Option.isSome_iff_exists.mp hsome
  obtain ⟨g2, r⟩ := p
  rw [hp]
  simp only [Option.map_some', Option.some.injEq]
  obtain ⟨_, _, _, _, _, h6, _, _⟩ := step_spec _ _ _ _ hp
  exact h6

/-- Witness for c6_coincidence_iff: at `gCo` (LYC = 1, enable set), stepping
456 cycles advances to line 1 and raises the coincidence interrupt. -/
theorem c6_witness :
    (step gCo 456).map (fun p => p.2.stat_coincidence) = some true :=
  (c6_coincidence_iff gCo 456 (by decide)).mpr (by decide)

/-- Counterexample for claim C8 as stated: the single-call sequence
[456·154] sums to exactly 456·154 cycles, yet the line index moves from 0
to 1, not back to 0 — `step` subtracts 456 at most once per call
(gpu.rs lines 378-380), so one oversized call advances only one line. -/
theorem c8_counterexample :
    ([456 * 154] : List Nat).sum = 456 * 154 ∧ gSeq.ly = 0 ∧
    (runT gSeq [456 * 154]).map (fun p => p.1.ly) = some 1 := by decide

/-- Claim C8 as amended: for sequences of `step` calls in which each call's
cycle argument is at most 456 (so no call spans more than one line
boundary), starting from an invariant state with sub-line counter < 456,
any completed run summing to exactly 456·154 cycles returns the line index
and the cycle counter to their starting values; moreover the final
(counter, line, mode) triple agrees between any two such runs, i.e. it is
independent of the chunking boundaries. -/
theorem c8_line_cycle (g : Gpu) (cs1 cs2 : List Nat) (hinv : GpuInv g)
    (hclk : g.clock < 456)
    (hb1 : ∀ x ∈ cs1, x ≤ 456) (hb2 : ∀ x ∈ cs2, x ≤ 456)
    (hs1 : cs1.sum = 456 * 154) (hs2 : cs2.sum = 456 * 154)
    (ho1 : (runT g cs1).isSome = true) (ho2 : (runT g cs2).isSome = true) :
    (runT g cs1).map (fun p => p.1.ly) = some g.ly ∧
    (runT g cs1).map (fun p => p.1.clock) = some g.clock ∧
    (runT g cs1).map (fun p => (p.1.clock, p.1.ly, p.1.mode)) =
      (runT g cs2).map (fun p => (p.1.clock, p.1.ly, p.1.mode)) := by
  obtain ⟨p1, hp1⟩ := Option.isSome_iff_exists.mp ho1
  obtain ⟨g1, rs1⟩ := p1
  obtain ⟨p2, hp2⟩ := Option.isSome_iff_exists.mp ho2
  obtain ⟨g2, rs2⟩ := p2
  obtain ⟨hck1, hav1, hlt1⟩ := runT_clock cs1 g g1 rs1 hb1 hclk hp1
  obtain ⟨hck2, hav2, hlt2⟩ := runT_clock cs2 g g2 rs2 hb2 hclk hp2
  have hly1 := runT_ly cs1 g g1 rs1 hinv.1 hp1
  have hly2 := runT_ly cs2 g g2 rs2 hinv.1 hp2
  have hne1 : cs1 ≠ [] := by intro he; rw [he] at hs1; simp at hs1
  have hne2 : cs2 ≠ [] := by intro he; rw [he] at hs2; simp at hs2
  have hm1 := runT_canon cs1 g g1 rs1 hinv hne1 hp1
  have hm2 := runT_canon cs2 g g2 rs2 hinv hne2 hp2
  have hcke1 : g1.clock = g.clock := by rw [hck1, hs1]; omega
  have hcke2 : g2.clock = g.clock := by rw [hck2, hs2]; omega
  have hadve1 : advCount g.clock cs1 = 154 := by rw [hav1, hs1]; omega
  have hadve2 : advCount g.clock cs2 = 154 := by rw [hav2, hs2]; omega
  have hlye1 : g1.ly = g.ly := by
    rw [hly1, hadve1]
    have := hinv.1
    omega
  have hlye2 : g2.ly = g.ly := by
    rw [hly2, hadve2]
    have := hinv.1
    omega
  rw [hp1, hp2]
  simp only [Option.map_some', Option.some.injEq]
  refine ⟨hlye1, hcke1, ?_⟩
  rw [hm1, hm2, hlye1, hlye2, hcke1, hcke2]

/-- Witness for c8_line_cycle: the power-on state driven by 154 chunks of
456 cycles and, alternatively, by 308 chunks of 228 cycles. -/
theorem c8_witness :
    ((runT gSeq (List.replicate 154 456)).map (fun p => p.1.ly) = some gSeq.ly) ∧
    ((runT gSeq (List.replicate 154 456)).map (fun p => p.1.clock) = some gSeq.clock) ∧
    (runT gSeq (List.replicate 154 456)).map (fun p => (p.1.clock, p.1.ly, p.1.mode)) =
      (runT gSeq (List.replicate 308 228)).map (fun p => (p.1.clock, p.1.ly, p.1.mode)) :=
  c8_line_cycle gSeq (List.replicate 154 456) (List.replicate 308 228)
    (by decide) (by decide) (by decide) (by decide) (by decide) (by decide)
    (by decide) (by decide)
